import Mathlib

/-!
Verification of the cart pricing and state logic of the Lorcana card shop
(`src/lorcana/src/context/CartContext.jsx`).

Shallow embedding conventions:
* JavaScript numbers are modelled as `ℚ` (the spec states internal computation
  is unrounded); quantities are integers (`ℤ`), as the data model requires.
* Cart line items (`CartItem`) carry exactly the fields created by `addToCart`:
  `id`, `name`, `image`, `price`, `quantity`, `premiumPackaging`.
* The React state of `CartProvider` is the record `CartState`; the
  `useEffect` that runs after every `setCartItems` and recomputes
  `cartCount`/`cartSubtotal` is modelled by `setItems`.
* `localStorage` persistence goes through the platform pair
  `JSON.stringify`/`JSON.parse`, modelled at the JSON-value level by the
  inductive `Json` together with `encodeItem`/`decodeItem`.
-/

namespace Lorcana

/-- A cart line item, exactly the object literal built in `addToCart`
(`CartContext.jsx` lines 81-88). -/
structure CartItem where
  id : String
  name : String
  image : String
  price : ℚ
  quantity : ℤ
  premiumPackaging : Bool
deriving DecidableEq, Repr

/-- A catalog card as consumed by `addToCart`: fields `_id`, `Name`, `Image`,
`Price`.  `Price` is optional in the catalog (the code guards with
`card.Price || 3.99`). -/
structure Card where
  _id : String
  Name : String
  Image : String
  Price : Option ℚ
deriving DecidableEq, Repr

/-- JavaScript `x || d` applied to an optional number: `undefined`/`null` are
falsy, and so is the number `0`, so both select the default `d`.  This models
the expression `card.Price || 3.99` in `addToCart`. -/
def jsOrDefault (x : Option ℚ) (d : ℚ) : ℚ :=
  match x with
  | none => d
  | some p => if p = 0 then d else p

/-- `addToCart(card)` (lines 67-91): if `prevItems.find(item => item.id ===
card._id)` succeeds, map over the items incrementing the matching quantity;
otherwise append a fresh line item with quantity 1, `premiumPackaging: false`
and `price: card.Price || 3.99`. -/
def addToCart (card : Card) (prevItems : List CartItem) : List CartItem :=
  match prevItems.find? (fun item => item.id == card._id) with
  | some _ =>
      prevItems.map (fun item =>
        if item.id == card._id then { item with quantity := item.quantity + 1 } else item)
  | none =>
      prevItems ++ [{ id := card._id, name := card.Name, image := card.Image,
                      price := jsOrDefault card.Price 3.99,
                      quantity := 1, premiumPackaging := false }]

/-- `updateQuantity(id, quantity)` (lines 99-107): early return when
`quantity < 1`, otherwise map over the items replacing the quantity of the
matching one. -/
def updateQuantity (id : String) (quantity : ℤ) (prevItems : List CartItem) :
    List CartItem :=
  if quantity < 1 then prevItems
  else
    prevItems.map (fun item =>
      if item.id == id then { item with quantity := quantity } else item)

/-- `togglePremiumPackaging(id)` (lines 114-120): flip the boolean of the
matching item. -/
def togglePremiumPackaging (id : String) (prevItems : List CartItem) :
    List CartItem :=
  prevItems.map (fun item =>
    if item.id == id then { item with premiumPackaging := !item.premiumPackaging }
    else item)

/-- `removeFromCart(id)` (lines 127-129): filter the matching item out. -/
def removeFromCart (id : String) (prevItems : List CartItem) : List CartItem :=
  prevItems.filter (fun item => item.id != id)

/-- `clearCart()` (lines 134-136): the cart becomes the empty list. -/
def clearCart : List CartItem := []

/-- The `cartCount` recomputation in the save effect (line 53):
`cartItems.reduce((total, item) => total + item.quantity, 0)`. -/
def itemsCount (cartItems : List CartItem) : ℤ :=
  cartItems.foldl (fun total item => total + item.quantity) 0

/-- The `cartSubtotal` recomputation in the save effect (line 57):
`cartItems.reduce((total, item) => total + (item.price * item.quantity), 0)`. -/
def itemsSubtotal (cartItems : List CartItem) : ℚ :=
  cartItems.foldl (fun total item => total + item.price * item.quantity) 0

/-- `calculatePremiumPackagingTotal()` (lines 162-169): fold adding
`premiumPackPrice * item.quantity` for the items with `premiumPackaging`
set. -/
def calculatePremiumPackagingTotal (premiumPackPrice : ℚ)
    (cartItems : List CartItem) : ℚ :=
  cartItems.foldl
    (fun total item =>
      if item.premiumPackaging then total + premiumPackPrice * item.quantity
      else total) 0

/-- `getTaxAmount()` (lines 193-196): tax applies to `cartSubtotal + shipping`
only. -/
def getTaxAmount (cartSubtotal shipping taxRate : ℚ) : ℚ :=
  (cartSubtotal + shipping) * taxRate

/-- `calculateTotal()` (lines 176-186): premium packaging total plus taxed
subtotal-and-shipping. -/
def calculateTotal (cartSubtotal shipping taxRate premiumPackPrice : ℚ)
    (cartItems : List CartItem) : ℚ :=
  let premiumPackagingTotal := calculatePremiumPackagingTotal premiumPackPrice cartItems
  let taxableAmount := cartSubtotal + shipping
  let taxAmount := taxableAmount * taxRate
  cartSubtotal + shipping + premiumPackagingTotal + taxAmount

/-! ### Persistence model

The load effect (lines 38-43) reads `localStorage.getItem('lorcanaCart')` and,
when a record is present, feeds it to `JSON.parse` and installs the result as
`cartItems` with no `try`/`catch` and no shape validation; the save effect
(line 49) writes `JSON.stringify(cartItems)`.  We model the durable record at
the JSON-value level (`Json`); the platform pair `JSON.stringify`/`JSON.parse`
is exact on such values.  Reading the parsed value back into typed line items
is `decodeCartItems`; its `.error` models the runtime failures of the untyped
code: a stored value that is not an array makes the very next save effect
throw a `TypeError` (`cartItems.reduce` is not a function), and a record that
is not parseable at all makes `JSON.parse` itself throw a `SyntaxError`. -/

/-- A JSON value, as produced by `JSON.parse` / consumed by `JSON.stringify`. -/
inductive Json where
  | null : Json
  | bool : Bool → Json
  | num : ℚ → Json
  | str : String → Json
  | arr : List Json → Json
  | obj : List (String × Json) → Json

/-- `JSON.stringify` on one line item: the object with the six fields created
by `addToCart`, in declaration order. -/
def encodeItem (item : CartItem) : Json :=
  .obj [("id", .str item.id), ("name", .str item.name), ("image", .str item.image),
        ("price", .num item.price), ("quantity", .num (item.quantity : ℚ)),
        ("premiumPackaging", .bool item.premiumPackaging)]

/-- `JSON.stringify(cartItems)`: the array of encoded line items. -/
def stringifyCart (cartItems : List CartItem) : Json :=
  .arr (cartItems.map encodeItem)

/-- Reading one parsed JSON value back as a line item.  Succeeds exactly on
objects of the shape written by `encodeItem` whose quantity is integral. -/
def decodeItem : Json → Except Unit CartItem
  | .obj [("id", .str id), ("name", .str name), ("image", .str image),
          ("price", .num price), ("quantity", .num q),
          ("premiumPackaging", .bool b)] =>
      if q.den = 1 then
        .ok { id := id, name := name, image := image, price := price,
              quantity := q.num, premiumPackaging := b }
      else .error ()
  | _ => .error ()

/-- Reading a list of parsed JSON values back as line items, element by
element. -/
def decodeItems : List Json → Except Unit (List CartItem)
  | [] => .ok []
  | j :: rest => do
      let item ← decodeItem j
      let items ← decodeItems rest
      .ok (item :: items)

/-- Reading a parsed JSON value back as the cart: it must be an array
(otherwise the save effect's `cartItems.reduce` throws a `TypeError`) of
line-item objects. -/
def decodeCartItems : Json → Except Unit (List CartItem)
  | .arr js => decodeItems js
  | _ => .error ()

/-- The load effect (lines 38-43): an absent record (`getItem` returned
`null`) leaves the initial empty cart; a present record is parsed and
installed, with failures propagating as uncaught exceptions (`.error`). -/
def loadStoredCart : Option Json → Except Unit (List CartItem)
  | none => .ok []
  | some j => decodeCartItems j

/-! ### The provider state

`CartProvider` holds `cartItems`, the derived `cartCount`/`cartSubtotal`
(recomputed by the save effect after every `setCartItems`), `taxRate` (a
`useState(0.13)` whose setter is never destructured), `shipping` and
`premiumPackPrice`. -/

/-- The React state of `CartProvider` (lines 28-33). -/
structure CartState where
  cartItems : List CartItem
  cartCount : ℤ
  cartSubtotal : ℚ
  taxRate : ℚ
  shipping : ℚ
  premiumPackPrice : ℚ
deriving Repr

/-- `setCartItems` followed by the save effect (lines 48-59): install the new
item list and recompute `cartCount` and `cartSubtotal`. -/
def setItems (s : CartState) (items : List CartItem) : CartState :=
  { s with cartItems := items,
           cartCount := itemsCount items,
           cartSubtotal := itemsSubtotal items }

/-- `addToCart` at the provider level. -/
def addToCartS (card : Card) (s : CartState) : CartState :=
  setItems s (addToCart card s.cartItems)

/-- `updateQuantity` at the provider level. -/
def updateQuantityS (id : String) (q : ℤ) (s : CartState) : CartState :=
  setItems s (updateQuantity id q s.cartItems)

/-- `togglePremiumPackaging` at the provider level. -/
def togglePremiumPackagingS (id : String) (s : CartState) : CartState :=
  setItems s (togglePremiumPackaging id s.cartItems)

/-- `removeFromCart` at the provider level. -/
def removeFromCartS (id : String) (s : CartState) : CartState :=
  setItems s (removeFromCart id s.cartItems)

/-- `clearCart` at the provider level. -/
def clearCartS (s : CartState) : CartState :=
  setItems s clearCart

/-- `updateShipping(newShippingPrice)` (lines 143-145). -/
def updateShipping (newShippingPrice : ℚ) (s : CartState) : CartState :=
  { s with shipping := newShippingPrice }

/-- `updatePremiumPackPrice(newPremiumPackPrice)` (lines 152-154). -/
def updatePremiumPackPrice (newPremiumPackPrice : ℚ) (s : CartState) : CartState :=
  { s with premiumPackPrice := newPremiumPackPrice }

/-- The initial provider state (lines 28-33): empty cart, `taxRate` 0.13,
`shipping` 5.99, `premiumPackPrice` 19.99. -/
def initialState : CartState :=
  { cartItems := [], cartCount := 0, cartSubtotal := 0,
    taxRate := 0.13, shipping := 5.99, premiumPackPrice := 19.99 }

/-- States reachable through the provider's public surface: the initial
state, the load effect installing a rehydrated item list, and the exposed
mutators.  The context value (lines 199-216) exposes `taxRate` read-only —
`useState(0.13)` destructures no setter — so no taxRate transition exists. -/
inductive Reachable : CartState → Prop where
  | init : Reachable initialState
  | rehydrate (s : CartState) (items : List CartItem) :
      Reachable s → Reachable (setItems s items)
  | addItem (s : CartState) (card : Card) :
      Reachable s → Reachable (addToCartS card s)
  | updateQty (s : CartState) (id : String) (q : ℤ) :
      Reachable s → Reachable (updateQuantityS id q s)
  | toggle (s : CartState) (id : String) :
      Reachable s → Reachable (togglePremiumPackagingS id s)
  | remove (s : CartState) (id : String) :
      Reachable s → Reachable (removeFromCartS id s)
  | clear (s : CartState) : Reachable s → Reachable (clearCartS s)
  | setShipping (s : CartState) (v : ℚ) :
      Reachable s → Reachable (updateShipping v s)
  | setPremium (s : CartState) (v : ℚ) :
      Reachable s → Reachable (updatePremiumPackPrice v s)

/-- Cart well-formedness: every quantity is at least 1 and line-item ids are
pairwise distinct. -/
def WF (cartItems : List CartItem) : Prop :=
  (∀ x ∈ cartItems, 1 ≤ x.quantity) ∧ (cartItems.map (·.id)).Nodup

/-! ### Fold characterizations -/

/-- A left fold that adds `f x` at each step computes the initial value plus
the sum of the mapped list. -/
theorem foldl_add_map {β : Type} [AddCommMonoid β] (f : CartItem → β)
    (l : List CartItem) (a : β) :
    l.foldl (fun t x => t + f x) a = a + (l.map f).sum := by
  induction l generalizing a with
  | nil => simp
  | cons x xs ih => simp [ih, add_assoc]

/-- A left fold that adds `f x` exactly when `p x` holds computes the initial
value plus the sum of the mapped filtered list. -/
theorem foldl_add_map_if (p : CartItem → Bool) (f : CartItem → ℚ)
    (l : List CartItem) (a : ℚ) :
    l.foldl (fun t x => if p x then t + f x else t) a
      = a + ((l.filter p).map f).sum := by
  induction l generalizing a with
  | nil => simp
  | cons x xs ih => cases hp : p x <;> simp [hp, ih, List.filter_cons, add_assoc]

/-- `cartSubtotal` as recomputed by the save effect is the sum of
`price * quantity`. -/
theorem itemsSubtotal_eq_sum (items : List CartItem) :
    itemsSubtotal items = (items.map (fun i => i.price * (i.quantity : ℚ))).sum := by
  simpa [itemsSubtotal] using
    foldl_add_map (fun i => i.price * (i.quantity : ℚ)) items 0

/-- `cartCount` as recomputed by the save effect is the sum of quantities. -/
theorem itemsCount_eq_sum (items : List CartItem) :
    itemsCount items = (items.map (·.quantity)).sum := by
  simpa [itemsCount] using foldl_add_map (fun i => i.quantity) items 0

/-- The premium-packaging fold is the sum of `premiumPackPrice * quantity`
over exactly the items with `premiumPackaging` set. -/
theorem calculatePremiumPackagingTotal_eq_sum (premiumPackPrice : ℚ)
    (items : List CartItem) :
    calculatePremiumPackagingTotal premiumPackPrice items
      = ((items.filter (·.premiumPackaging)).map
          (fun i => premiumPackPrice * (i.quantity : ℚ))).sum := by
  simpa [calculatePremiumPackagingTotal] using
    foldl_add_map_if (·.premiumPackaging)
      (fun i => premiumPackPrice * (i.quantity : ℚ)) items 0

/-- C1: for every list of cart line items and all pricing parameters, the
computed total equals subtotal + shippingCost + premiumPackagingTotal +
taxAmount, where subtotal sums `unitPrice * quantity`, the premium packaging
total sums `premiumPackUnitPrice * quantity` over exactly the items with
`premiumPackaging = true`, and taxAmount is `(subtotal + shippingCost) *
taxRate` — so premium packaging contributes to the total but not to the
taxable base. -/
theorem calculateTotal_spec (cartItems : List CartItem)
    (taxRate shippingCost premiumPackUnitPrice : ℚ) :
    calculateTotal (itemsSubtotal cartItems) shippingCost taxRate
        premiumPackUnitPrice cartItems
      = itemsSubtotal cartItems + shippingCost
        + calculatePremiumPackagingTotal premiumPackUnitPrice cartItems
        + getTaxAmount (itemsSubtotal cartItems) shippingCost taxRate
    ∧ itemsSubtotal cartItems
      = (cartItems.map (fun i => i.price * (i.quantity : ℚ))).sum
    ∧ calculatePremiumPackagingTotal premiumPackUnitPrice cartItems
      = ((cartItems.filter (·.premiumPackaging)).map
          (fun i => premiumPackUnitPrice * (i.quantity : ℚ))).sum
    ∧ getTaxAmount (itemsSubtotal cartItems) shippingCost taxRate
      = (itemsSubtotal cartItems + shippingCost) * taxRate :=
  ⟨rfl, itemsSubtotal_eq_sum cartItems,
    calculatePremiumPackagingTotal_eq_sum premiumPackUnitPrice cartItems, rfl⟩

/-! ### Behaviour of the cart mutators -/

/-- A map whose function fixes every element of the list is the identity. -/
theorem map_eq_self_of (f : CartItem → CartItem) (l : List CartItem)
    (h : ∀ x ∈ l, f x = x) : l.map f = l := by
  induction l with
  | nil => rfl
  | cons x xs ih => simp [h x (by simp), ih (fun y hy => h y (by simp [hy]))]

/-- When some item matches the card's id, `addToCart` takes its `find?` hit
branch and maps the increment over the list. -/
theorem addToCart_of_mem (card : Card) (c : List CartItem)
    (h : ∃ x ∈ c, x.id = card._id) :
    addToCart card c
      = c.map (fun item =>
          if item.id == card._id then { item with quantity := item.quantity + 1 }
          else item) := by
  obtain ⟨x, hx, hid⟩ := h
  have hs : (c.find? (fun item => item.id == card._id)).isSome := by
    rw [List.find?_isSome]
    exact ⟨x, hx, by simp [hid]⟩
  rw [addToCart]
  cases hf : c.find? (fun item => item.id == card._id) with
  | none => rw [hf] at hs; simp at hs
  | some y => rfl

/-- When no item matches the card's id, `addToCart` appends the fresh line
item. -/
theorem addToCart_of_forall_ne (card : Card) (c : List CartItem)
    (h : ∀ x ∈ c, x.id ≠ card._id) :
    addToCart card c
      = c ++ [{ id := card._id, name := card.Name, image := card.Image,
                price := jsOrDefault card.Price 3.99, quantity := 1,
                premiumPackaging := false }] := by
  have hf : c.find? (fun item => item.id == card._id) = none := by
    rw [List.find?_eq_none]
    intro x hx
    simpa using h x hx
  rw [addToCart, hf]

/-- C3: with pairwise-distinct ids, `addToCart` on a present id increments
exactly that line item's quantity by 1 and adds no new line item; on an
absent id it appends a new line item with quantity 1 and `premiumPackaging =
false`; and adding the same card twice to an empty cart yields exactly one
line item with quantity 2. -/
theorem addItem_spec (card : Card) (c : List CartItem)
    (hnodup : (c.map (·.id)).Nodup) :
    (∀ l₁ x l₂, c = l₁ ++ x :: l₂ → x.id = card._id →
        addToCart card c = l₁ ++ { x with quantity := x.quantity + 1 } :: l₂)
    ∧ ((∀ x ∈ c, x.id ≠ card._id) →
        addToCart card c
          = c ++ [{ id := card._id, name := card.Name, image := card.Image,
                    price := jsOrDefault card.Price 3.99, quantity := 1,
                    premiumPackaging := false }])
    ∧ addToCart card (addToCart card [])
      = [{ id := card._id, name := card.Name, image := card.Image,
           price := jsOrDefault card.Price 3.99, quantity := 2,
           premiumPackaging := false }] := by
  refine ⟨?_, addToCart_of_forall_ne card c, by simp [addToCart]⟩
  intro l₁ x l₂ hc hid
  subst hc
  rw [List.map_append, List.map_cons, List.nodup_append] at hnodup
  obtain ⟨-, hcons, hdisj⟩ := hnodup
  have hl₁ : ∀ y ∈ l₁, y.id ≠ card._id := by
    intro y hy hcontr
    exact hdisj (a := y.id) (by simpa using ⟨y, hy, rfl⟩)
      (by simp [hcontr, hid])
  have hl₂ : ∀ y ∈ l₂, y.id ≠ card._id := by
    rw [List.nodup_cons] at hcons
    intro y hy hcontr
    refine hcons.1 ?_
    simp only [List.mem_map]
    exact ⟨y, hy, by rw [hcontr, hid]⟩
  rw [addToCart_of_mem card _ ⟨x, by simp, hid⟩, List.map_append, List.map_cons]
  rw [map_eq_self_of _ _ (fun y hy => by simp [hl₁ y hy]),
      map_eq_self_of _ _ (fun y hy => by simp [hl₂ y hy])]
  simp [hid]

/-- Witness for `addItem_spec`: adding a card whose id is already in a
one-item cart yields the same single line with quantity 2. -/
theorem addItem_spec_witness :
    addToCart { _id := "a", Name := "n", Image := "m", Price := some 2 }
      [{ id := "a", name := "n", image := "m", price := 2, quantity := 1,
         premiumPackaging := false }]
    = [{ id := "a", name := "n", image := "m", price := 2, quantity := 2,
         premiumPackaging := false }] := by
  have h := (addItem_spec { _id := "a", Name := "n", Image := "m", Price := some 2 }
      [{ id := "a", name := "n", image := "m", price := 2, quantity := 1,
         premiumPackaging := false }] (by simp)).1
      [] { id := "a", name := "n", image := "m", price := 2, quantity := 1,
           premiumPackaging := false } [] rfl rfl
  simpa using h

/-- C4: `updateQuantity` is the identity when the requested quantity is below
1 and when no item has the given id; when the quantity is at least 1 it sets
exactly the matching item's quantity and leaves every other line item
unchanged. -/
theorem updateQuantity_spec (id : String) (q : ℤ) (c : List CartItem) :
    (q < 1 → updateQuantity id q c = c)
    ∧ ((∀ x ∈ c, x.id ≠ id) → updateQuantity id q c = c)
    ∧ (1 ≤ q → ∀ l₁ x l₂, c = l₁ ++ x :: l₂ → x.id = id →
        (∀ y ∈ l₁, y.id ≠ id) → (∀ y ∈ l₂, y.id ≠ id) →
        updateQuantity id q c = l₁ ++ { x with quantity := q } :: l₂) := by
  refine ⟨fun h => by rw [updateQuantity, if_pos h], ?_, ?_⟩
  · intro h
    rw [updateQuantity]
    by_cases hq : q < 1
    · rw [if_pos hq]
    · rw [if_neg hq]
      exact map_eq_self_of _ _ (fun y hy => by simp [h y hy])
  · intro hq l₁ x l₂ hc hid hl₁ hl₂
    subst hc
    rw [updateQuantity, if_neg (by omega), List.map_append, List.map_cons]
    rw [map_eq_self_of _ _ (fun y hy => by simp [hl₁ y hy]),
        map_eq_self_of _ _ (fun y hy => by simp [hl₂ y hy])]
    simp [hid]

/-- Witness for `updateQuantity_spec`: setting quantity 5 on the only item,
and the no-ops at 0 and -1. -/
theorem updateQuantity_spec_witness :
    updateQuantity "a" 5
      [{ id := "a", name := "n", image := "m", price := 2, quantity := 1,
         premiumPackaging := false }]
    = [{ id := "a", name := "n", image := "m", price := 2, quantity := 5,
         premiumPackaging := false }]
    ∧ updateQuantity "a" 0
      [{ id := "a", name := "n", image := "m", price := 2, quantity := 1,
         premiumPackaging := false }]
      = [{ id := "a", name := "n", image := "m", price := 2, quantity := 1,
           premiumPackaging := false }] := by
  constructor
  · have h := (updateQuantity_spec "a" 5
        [{ id := "a", name := "n", image := "m", price := 2, quantity := 1,
           premiumPackaging := false }]).2.2 (by omega)
        [] { id := "a", name := "n", image := "m", price := 2, quantity := 1,
             premiumPackaging := false } [] rfl rfl (by simp) (by simp)
    simpa using h
  · exact (updateQuantity_spec "a" 0
      [{ id := "a", name := "n", image := "m", price := 2, quantity := 1,
         premiumPackaging := false }]).1 (by omega)

/-- C7: toggling premium packaging twice with the same id restores the cart,
and in particular restores the premium-packaging total for every premium unit
price. -/
theorem togglePremiumPackaging_involutive (id : String) (c : List CartItem)
    (h : ∃ x ∈ c, x.id = id) :
    togglePremiumPackaging id (togglePremiumPackaging id c) = c
    ∧ ∀ premiumPackPrice : ℚ,
        calculatePremiumPackagingTotal premiumPackPrice
          (togglePremiumPackaging id (togglePremiumPackaging id c))
        = calculatePremiumPackagingTotal premiumPackPrice c := by
  have elem : ∀ x : CartItem,
      (fun item => if item.id == id
          then { item with premiumPackaging := !item.premiumPackaging } else item)
        ((fun item => if item.id == id
          then { item with premiumPackaging := !item.premiumPackaging } else item) x)
      = x := by
    intro x
    cases x with
    | mk i n im p q b =>
      by_cases hid : i = id
      · simp [hid, Bool.not_not]
      · simp [hid]
  have key : togglePremiumPackaging id (togglePremiumPackaging id c) = c := by
    rw [togglePremiumPackaging, togglePremiumPackaging, List.map_map]
    exact map_eq_self_of _ _ (fun x _ => elem x)
  exact ⟨key, fun p => by rw [key]⟩

/-- Witness for `togglePremiumPackaging_involutive` on a one-item cart. -/
theorem togglePremiumPackaging_involutive_witness :
    togglePremiumPackaging "a"
      (togglePremiumPackaging "a"
        [{ id := "a", name := "n", image := "m", price := 2, quantity := 1,
           premiumPackaging := false }])
    = [{ id := "a", name := "n", image := "m", price := 2, quantity := 1,
         premiumPackaging := false }] :=
  (togglePremiumPackaging_involutive "a"
    [{ id := "a", name := "n", image := "m", price := 2, quantity := 1,
       premiumPackaging := false }]
    ⟨{ id := "a", name := "n", image := "m", price := 2, quantity := 1,
       premiumPackaging := false }, by simp, rfl⟩).1

/-- C5 counterexample: a catalog card whose price is present but equal to 0
does not have its price captured — the line item gets the fallback 3.99,
because `card.Price || 3.99` treats the number 0 as falsy. -/
theorem addToCart_price_zero_counterexample :
    ({ _id := "z", Name := "n", Image := "m", Price := some 0 } : Card).Price
      = some 0
    ∧ addToCart { _id := "z", Name := "n", Image := "m", Price := some 0 } []
      = [{ id := "z", name := "n", image := "m", price := 3.99, quantity := 1,
           premiumPackaging := false }]
    ∧ (3.99 : ℚ) ≠ 0 := by
  refine ⟨rfl, ?_, by norm_num⟩
  simp [addToCart, jsOrDefault]

/-- C5 (amended): `addToCart` captures the catalog price as the line item's
`unitPrice` when the price is present and non-zero; the fixed fallback 3.99
is used when the catalog item has no price or its price is 0 (falsy under
JavaScript `||`). -/
theorem addItem_price_capture (card : Card) (c : List CartItem)
    (h : ∀ x ∈ c, x.id ≠ card._id) :
    (∀ p : ℚ, card.Price = some p → p ≠ 0 →
        addToCart card c
          = c ++ [{ id := card._id, name := card.Name, image := card.Image,
                    price := p, quantity := 1, premiumPackaging := false }])
    ∧ (card.Price = none →
        addToCart card c
          = c ++ [{ id := card._id, name := card.Name, image := card.Image,
                    price := 3.99, quantity := 1, premiumPackaging := false }])
    ∧ (card.Price = some 0 →
        addToCart card c
          = c ++ [{ id := card._id, name := card.Name, image := card.Image,
                    price := 3.99, quantity := 1, premiumPackaging := false }]) := by
  refine ⟨?_, ?_, ?_⟩
  · intro p hp hp0
    rw [addToCart_of_forall_ne card c h]
    simp [jsOrDefault, hp, hp0]
  · intro hp
    rw [addToCart_of_forall_ne card c h]
    simp [jsOrDefault, hp]
  · intro hp
    rw [addToCart_of_forall_ne card c h]
    simp [jsOrDefault, hp]

/-- Witness for `addItem_price_capture`: a card priced 2 added to the empty
cart is captured at unit price 2. -/
theorem addItem_price_capture_witness :
    addToCart { _id := "a", Name := "n", Image := "m", Price := some 2 } []
      = [{ id := "a", name := "n", image := "m", price := 2, quantity := 1,
           premiumPackaging := false }] := by
  have h := (addItem_price_capture
      { _id := "a", Name := "n", Image := "m", Price := some 2 } []
      (by simp)).1 2 rfl (by norm_num)
  simpa using h

/-- C2: the load effect starts from an empty cart when no durable record
exists, but a malformed record is not degraded to an empty cart: the parse
result is installed unvalidated, so startup fails (modelled as `.error`) —
here on the stored record `5`, whose installation makes the save effect's
`cartItems.reduce` throw. -/
theorem loadStoredCart_malformed :
    loadStoredCart none = .ok []
    ∧ loadStoredCart (some (.num 5)) = .error () :=
  ⟨rfl, rfl⟩

/-- Decoding the encoding of a line item recovers it exactly. -/
theorem decodeItem_encodeItem (x : CartItem) :
    decodeItem (encodeItem x) = .ok x := by
  cases x with
  | mk i n im p q b =>
    simp [encodeItem, decodeItem, Rat.den_intCast, Rat.num_intCast]

/-- Decoding the encoding of a line-item list recovers it exactly. -/
theorem decodeItems_encode (l : List CartItem) :
    decodeItems (l.map encodeItem) = .ok l := by
  induction l with
  | nil => rfl
  | cons x xs ih =>
    simp only [List.map_cons, decodeItems, decodeItem_encodeItem x, ih]
    rfl

/-- C9: persist-then-rehydrate is the identity on carts — loading the
stringified cart at the next session start reproduces the very same line
items, hence identical `itemsCount`, `itemsSubtotal`, premium packaging total
and total, with no other data source involved. -/
theorem persist_rehydrate_roundtrip (cartItems : List CartItem) :
    loadStoredCart (some (stringifyCart cartItems)) = .ok cartItems
    ∧ (loadStoredCart (some (stringifyCart cartItems))).map itemsCount
      = .ok (itemsCount cartItems)
    ∧ (loadStoredCart (some (stringifyCart cartItems))).map itemsSubtotal
      = .ok (itemsSubtotal cartItems)
    ∧ (∀ premiumPackPrice : ℚ,
        (loadStoredCart (some (stringifyCart cartItems))).map
            (calculatePremiumPackagingTotal premiumPackPrice)
          = .ok (calculatePremiumPackagingTotal premiumPackPrice cartItems))
    ∧ ∀ shipping taxRate premiumPackPrice : ℚ,
        (loadStoredCart (some (stringifyCart cartItems))).map
            (fun items => calculateTotal (itemsSubtotal items) shipping taxRate
              premiumPackPrice items)
          = .ok (calculateTotal (itemsSubtotal cartItems) shipping taxRate
              premiumPackPrice cartItems) := by
  have h1 : loadStoredCart (some (stringifyCart cartItems)) = .ok cartItems := by
    simp [loadStoredCart, stringifyCart, decodeCartItems, decodeItems_encode]
  exact ⟨h1, by rw [h1]; rfl, by rw [h1]; rfl, fun _ => by rw [h1]; rfl,
    fun _ _ _ => by rw [h1]; rfl⟩

/-- C8: with non-negative prices, quantities, tax rate, shipping cost and
premium unit price, the computed total is at least subtotal plus shipping,
because tax and packaging contributions are non-negative. -/
theorem total_ge_subtotal_add_shipping (cartItems : List CartItem)
    (taxRate shipping premiumPackPrice : ℚ)
    (hq : ∀ x ∈ cartItems, 0 ≤ x.quantity)
    (hp : ∀ x ∈ cartItems, 0 ≤ x.price)
    (ht : 0 ≤ taxRate) (hs : 0 ≤ shipping) (hpp : 0 ≤ premiumPackPrice) :
    itemsSubtotal cartItems + shipping
      ≤ calculateTotal (itemsSubtotal cartItems) shipping taxRate
          premiumPackPrice cartItems := by
  have hsub : 0 ≤ itemsSubtotal cartItems := by
    rw [itemsSubtotal_eq_sum]
    apply List.sum_nonneg
    intro a ha
    obtain ⟨x, hx, rfl⟩ := List.mem_map.mp ha
    exact mul_nonneg (hp x hx) (by exact_mod_cast hq x hx)
  have hprem : 0 ≤ calculatePremiumPackagingTotal premiumPackPrice cartItems := by
    rw [calculatePremiumPackagingTotal_eq_sum]
    apply List.sum_nonneg
    intro a ha
    obtain ⟨x, hx, rfl⟩ := List.mem_map.mp ha
    exact mul_nonneg hpp (by exact_mod_cast hq x (List.mem_of_mem_filter hx))
  have htax : 0 ≤ (itemsSubtotal cartItems + shipping) * taxRate :=
    mul_nonneg (by linarith) ht
  have hT : calculateTotal (itemsSubtotal cartItems) shipping taxRate
      premiumPackPrice cartItems
    = itemsSubtotal cartItems + shipping
      + calculatePremiumPackagingTotal premiumPackPrice cartItems
      + (itemsSubtotal cartItems + shipping) * taxRate := rfl
  rw [hT]
  linarith

/-- Witness for `total_ge_subtotal_add_shipping` on a one-item cart with the
shop's default parameters. -/
theorem total_ge_subtotal_add_shipping_witness :
    itemsSubtotal [{ id := "a", name := "n", image := "m", price := 2,
                     quantity := 1, premiumPackaging := false }] + 5.99
      ≤ calculateTotal
          (itemsSubtotal [{ id := "a", name := "n", image := "m", price := 2,
                            quantity := 1, premiumPackaging := false }])
          5.99 0.13 19.99
          [{ id := "a", name := "n", image := "m", price := 2, quantity := 1,
             premiumPackaging := false }] :=
  total_ge_subtotal_add_shipping
    [{ id := "a", name := "n", image := "m", price := 2, quantity := 1,
       premiumPackaging := false }]
    0.13 5.99 19.99
    (by simp) (by simp) (by norm_num) (by norm_num) (by norm_num)

/-- C10: `taxRate` is the constant 0.13 in every reachable provider state —
the initial state sets it to 0.13 and none of the exposed operations (nor the
load effect) has a transition that changes it, there being no setter in the
context value. -/
theorem taxRate_constant (s : CartState) (h : Reachable s) :
    s.taxRate = 0.13 := by
  induction h with
  | init => rfl
  | rehydrate s items _ ih => exact ih
  | addItem s card _ ih => exact ih
  | updateQty s id q _ ih => exact ih
  | toggle s id _ ih => exact ih
  | remove s id _ ih => exact ih
  | clear s _ ih => exact ih
  | setShipping s v _ ih => exact ih
  | setPremium s v _ ih => exact ih

/-- Witness for `taxRate_constant` at the initial state. -/
theorem taxRate_constant_witness : initialState.taxRate = 0.13 :=
  taxRate_constant initialState Reachable.init

/-- Mapping an id-preserving function over a cart leaves the id sequence
unchanged. -/
theorem map_map_id_eq (f : CartItem → CartItem) (l : List CartItem)
    (h : ∀ x, (f x).id = x.id) : (l.map f).map (·.id) = l.map (·.id) := by
  induction l with
  | nil => rfl
  | cons x xs ih => simp [h x, ih]

/-- A map that preserves ids and keeps quantities at least 1 preserves cart
well-formedness and the id sequence. -/
theorem WF_map (f : CartItem → CartItem) (c : List CartItem) (hc : WF c)
    (hid : ∀ x, (f x).id = x.id)
    (hq : ∀ x ∈ c, 1 ≤ x.quantity → 1 ≤ (f x).quantity) :
    WF (c.map f) ∧ (c.map f).map (·.id) = c.map (·.id) := by
  have hids := map_map_id_eq f c hid
  refine ⟨⟨?_, by rw [hids]; exact hc.2⟩, hids⟩
  intro y hy
  obtain ⟨x, hx, rfl⟩ := List.mem_map.mp hy
  exact hq x hx (hc.1 x hx)

/-- C6: every cart operation preserves well-formedness — integer quantities
at least 1 and pairwise-distinct ids — and preserves the relative order of
the line items that remain, expressed through the id sequences: the update,
toggle and (on a present id) add operations keep the id sequence unchanged,
adding a fresh id appends it at the end, removal yields a subsequence, and
clearing yields the well-formed empty cart. -/
theorem ops_preserve_WF (c : List CartItem) (card : Card) (id : String)
    (q : ℤ) (hc : WF c) :
    (WF (addToCart card c)
      ∧ ((addToCart card c).map (·.id)).Sublist (c.map (·.id) ++ [card._id]))
    ∧ (WF (updateQuantity id q c)
      ∧ (updateQuantity id q c).map (·.id) = c.map (·.id))
    ∧ (WF (togglePremiumPackaging id c)
      ∧ (togglePremiumPackaging id c).map (·.id) = c.map (·.id))
    ∧ (WF (removeFromCart id c)
      ∧ ((removeFromCart id c).map (·.id)).Sublist (c.map (·.id)))
    ∧ WF clearCart := by
  obtain ⟨hq1, hnd⟩ := hc
  refine ⟨?_, ?_, ?_, ?_, ?_⟩
  · by_cases hmem : ∃ x ∈ c, x.id = card._id
    · rw [addToCart_of_mem card c hmem]
      obtain ⟨hwf, hids⟩ := WF_map
        (fun item => if item.id == card._id
          then { item with quantity := item.quantity + 1 } else item)
        c ⟨hq1, hnd⟩
        (fun x => by by_cases hb : (x.id == card._id) = true <;> simp [hb])
        (fun x _ h1 => by
          by_cases hb : (x.id == card._id) = true <;> simp [hb] <;> omega)
      exact ⟨hwf, by rw [hids]; exact List.sublist_append_left _ _⟩
    · push_neg at hmem
      rw [addToCart_of_forall_ne card c hmem]
      refine ⟨⟨?_, ?_⟩, ?_⟩
      · intro y hy
        rcases List.mem_append.mp hy with h | h
        · exact hq1 y h
        · rw [List.mem_singleton] at h
          subst h
          norm_num
      · rw [List.map_append, List.map_singleton, List.nodup_append]
        refine ⟨hnd, List.nodup_singleton _, ?_⟩
        intro a ha hb
        rw [List.mem_singleton] at hb
        subst hb
        obtain ⟨x, hx, hxa⟩ := List.mem_map.mp ha
        exact hmem x hx hxa
      · rw [List.map_append, List.map_singleton]
  · by_cases hlt : q < 1
    · rw [updateQuantity, if_pos hlt]
      exact ⟨⟨hq1, hnd⟩, rfl⟩
    · rw [updateQuantity, if_neg hlt]
      exact WF_map
        (fun item => if item.id == id then { item with quantity := q } else item)
        c ⟨hq1, hnd⟩
        (fun x => by by_cases hb : (x.id == id) = true <;> simp [hb])
        (fun x _ h1 => by
          by_cases hb : (x.id == id) = true <;> simp [hb] <;> omega)
  · rw [togglePremiumPackaging]
    exact WF_map
      (fun item => if item.id == id
        then { item with premiumPackaging := !item.premiumPackaging } else item)
      c ⟨hq1, hnd⟩
      (fun x => by by_cases hb : (x.id == id) = true <;> simp [hb])
      (fun x _ h1 => by
        by_cases hb : (x.id == id) = true <;> simp [hb] <;> omega)
  · have hsub : (removeFromCart id c).Sublist c := by
      rw [removeFromCart]
      exact List.filter_sublist c
    have hids : ((removeFromCart id c).map (·.id)).Sublist (c.map (·.id)) :=
      hsub.map _
    exact ⟨⟨fun y hy => hq1 y (hsub.subset hy), List.Nodup.sublist hids hnd⟩, hids⟩
  · exact ⟨fun y hy => absurd hy (by simp [clearCart]), by simp [clearCart]⟩

/-- Witness for `ops_preserve_WF`: adding a fresh card to a well-formed
one-item cart keeps it well-formed and appends the new id. -/
theorem ops_preserve_WF_witness :
    WF (addToCart { _id := "b", Name := "n", Image := "m", Price := some 2 }
        [{ id := "a", name := "n", image := "m", price := 2, quantity := 1,
           premiumPackaging := false }])
    ∧ ((addToCart { _id := "b", Name := "n", Image := "m", Price := some 2 }
        [{ id := "a", name := "n", image := "m", price := 2, quantity := 1,
           premiumPackaging := false }]).map (·.id)).Sublist
        (([{ id := "a", name := "n", image := "m", price := 2, quantity := 1,
             premiumPackaging := false }] : List CartItem).map (·.id) ++ ["b"]) :=
  (ops_preserve_WF
    [{ id := "a", name := "n", image := "m", price := 2, quantity := 1,
       premiumPackaging := false }]
    { _id := "b", Name := "n", Image := "m", Price := some 2 } "a" 3
    ⟨by intro x hx; rw [List.mem_singleton] at hx; subst hx; norm_num,
     by simp⟩).1

end Lorcana
